import Mathlib

/-!
Shallow embedding of the stmpe1600 I2C GPIO-expander driver
(src/src/device.rs, src/src/builder.rs, src/src/lib.rs, src/src/pins.rs).

The I2C transport is modelled byte-for-byte: every driver-issued bus
transaction (a write of a byte list, or a read returning a byte list) is
recorded in a trace.  The chip side of the bus is a register file: a
one-byte write sets the register address pointer, a three-byte write
stores a 16-bit value (low byte first), and a two-byte read serves the
addressed register low byte first, exactly as the embedded-hal mock used
by the crate tests does.  Bus faults are injected through a script of
optional error codes, one entry consumed per transaction, so that the
error paths of the Rust code (every map_err(Error::I2CError) point) are
reachable in the model.

All driver functions are translated from the Rust source, statement by
statement; u16 arithmetic is Nat with explicit % 65536 / % 256 masking at
the points where Rust casts (as u8, as u16) or fixed-width registers make
overflow observable.
-/

/-- Pin modes, from PinMode in src/src/lib.rs. -/
inductive PinMode where
  | Input
  | Output
  | Interrupt
deriving DecidableEq, Repr

/-- Polarity of a pin, from Polarity in the crate (used by polarity_inversion). -/
inductive Polarity where
  | Low
  | High
deriving DecidableEq, Repr

/-- Interrupt output polarity, from InterruptPolarity in src/src/lib.rs. -/
inductive InterruptPolarity where
  | Low
  | High
deriving DecidableEq, Repr

/-- Driver errors, from Error in src/src/lib.rs.  The I2C bus error payload is
modelled as a numeric code. -/
inductive Error where
  | I2CError (e : Nat)
  | InvalidDeviceID
  | IncorrectPinMode
deriving DecidableEq, Repr

/-- Register addresses, from Register in src/src/device.rs. -/
inductive Register where
  | ChipID
  | SystemControl
  | IEGPIOR
  | ISGPIOR
  | GPMR
  | GPSR
  | GPDR
  | GPPIR
deriving DecidableEq, Repr

/-- The numeric address of each register (the repr(u8) discriminants in
src/src/device.rs). -/
def Register.addr : Register → Nat
  | .ChipID => 0x00
  | .SystemControl => 0x03
  | .IEGPIOR => 0x08
  | .ISGPIOR => 0x0A
  | .GPMR => 0x10
  | .GPSR => 0x12
  | .GPDR => 0x14
  | .GPPIR => 0x16

/-- The device identifier constant DEVICE_ID in src/src/device.rs. -/
def DEVICE_ID : Nat := 0x1600

/-- The default I2C address DEFAULT_ADDRESS in src/src/lib.rs. -/
def DEFAULT_ADDRESS : Nat := 0x42

/-- The register file of the chip on the far side of the bus, plus the
register address pointer selected by the last one-byte address write.
Register values are Nat; the wire protocol only ever transports the low
16 bits (or low 8 bits for one-byte reads). -/
structure Chip where
  chipID : Nat
  syscon : Nat
  iegpior : Nat
  isgpior : Nat
  gpmr : Nat
  gpsr : Nat
  gpdr : Nat
  gppir : Nat
  ptr : Nat
deriving DecidableEq, Repr

/-- Read the register at a numeric address. -/
def getReg (c : Chip) (a : Nat) : Nat :=
  if a = 0x00 then c.chipID
  else if a = 0x03 then c.syscon
  else if a = 0x08 then c.iegpior
  else if a = 0x0A then c.isgpior
  else if a = 0x10 then c.gpmr
  else if a = 0x12 then c.gpsr
  else if a = 0x14 then c.gpdr
  else if a = 0x16 then c.gppir
  else 0

/-- Store a 16-bit value at a numeric register address (ChipID is read-only
and writes to unknown addresses are ignored by the model). -/
def chipSet16 (c : Chip) (a v : Nat) : Chip :=
  if a = 0x03 then { c with syscon := v, ptr := a }
  else if a = 0x08 then { c with iegpior := v, ptr := a }
  else if a = 0x0A then { c with isgpior := v, ptr := a }
  else if a = 0x10 then { c with gpmr := v, ptr := a }
  else if a = 0x12 then { c with gpsr := v, ptr := a }
  else if a = 0x14 then { c with gpdr := v, ptr := a }
  else if a = 0x16 then { c with gppir := v, ptr := a }
  else { c with ptr := a }

/-- Store an 8-bit value at a numeric register address. -/
def chipSet8 (c : Chip) (a v : Nat) : Chip :=
  chipSet16 c a v

/-- The chip reaction to an I2C write: one byte selects a register address,
two bytes write an 8-bit register, three bytes write a 16-bit register with
the low byte on the wire first. -/
def chipWrite (c : Chip) (bytes : List Nat) : Chip :=
  match bytes with
  | [r] => { c with ptr := r }
  | [r, b] => chipSet8 c r b
  | [r, lo, hi] => chipSet16 c r (lo ||| (hi <<< 8))
  | _ => c

/-- The chip reaction to an I2C read of n bytes: serve the register selected
by the address pointer, low byte first.  The driver only ever reads one or
two bytes. -/
def chipReadBytes (c : Chip) (n : Nat) : List Nat :=
  let v := getReg c c.ptr
  match n with
  | 1 => [v % 256]
  | 2 => [v % 256, (v >>> 8) % 256]
  | _ => []

/-- One observed bus transaction: an I2C write of the given bytes, or an I2C
read that returned the given bytes. -/
inductive Tx where
  | wr (addr : Nat) (bytes : List Nat)
  | rd (addr : Nat) (bytes : List Nat)
deriving DecidableEq, Repr

/-- The whole model state threaded through every driver operation: the chip
register file, the script of injected bus faults (one optional error code
per upcoming transaction; an empty script means every transaction
succeeds), the trace of issued transactions, the in-memory pin mode table
(the pins array of Stmpe1600 in src/src/lib.rs) and the device I2C
address. -/
structure St where
  chip : Chip
  faults : List (Option Nat)
  trace : List Tx
  pins : List PinMode
  addr : Nat
deriving DecidableEq, Repr

/-- The I2C write primitive (embedded-hal blocking Write), with fault
injection.  A faulted transaction is still recorded as attempted but does
not reach the chip. -/
def i2cWrite (bytes : List Nat) (s : St) : Except Error Unit × St :=
  match s.faults with
  | some e :: rest =>
    (.error (.I2CError e), { s with faults := rest, trace := s.trace ++ [.wr s.addr bytes] })
  | none :: rest =>
    (.ok (),
     { s with
         faults := rest
         chip := chipWrite s.chip bytes
         trace := s.trace ++ [.wr s.addr bytes] })
  | [] =>
    (.ok (),
     { s with
         chip := chipWrite s.chip bytes
         trace := s.trace ++ [.wr s.addr bytes] })

/-- The I2C read primitive (embedded-hal blocking Read), with fault
injection. -/
def i2cRead (n : Nat) (s : St) : Except Error (List Nat) × St :=
  match s.faults with
  | some e :: rest =>
    (.error (.I2CError e), { s with faults := rest, trace := s.trace ++ [.rd s.addr []] })
  | none :: rest =>
    (.ok (chipReadBytes s.chip n),
     { s with
         faults := rest
         trace := s.trace ++ [.rd s.addr (chipReadBytes s.chip n)] })
  | [] =>
    (.ok (chipReadBytes s.chip n),
     { s with
         trace := s.trace ++ [.rd s.addr (chipReadBytes s.chip n)] })

/-- Stmpe1600Device::read_reg in src/src/device.rs: write the register
address, read two bytes, reassemble as (buffer[1] << 8) | buffer[0]. -/
def read_reg (reg : Register) (s : St) : Except Error Nat × St :=
  match i2cWrite [reg.addr] s with
  | (.error e, s1) => (.error e, s1)
  | (.ok _, s1) =>
    match i2cRead 2 s1 with
    | (.error e, s2) => (.error e, s2)
    | (.ok buf, s2) => (.ok ((buf.getD 1 0 <<< 8) ||| buf.getD 0 0), s2)

/-- Stmpe1600Device::read_reg8 in src/src/device.rs. -/
def read_reg8 (reg : Register) (s : St) : Except Error Nat × St :=
  match i2cWrite [reg.addr] s with
  | (.error e, s1) => (.error e, s1)
  | (.ok _, s1) =>
    match i2cRead 1 s1 with
    | (.error e, s2) => (.error e, s2)
    | (.ok buf, s2) => (.ok (buf.getD 0 0), s2)

/-- Stmpe1600Device::write_reg in src/src/device.rs: a single three-byte
write of register address, value as u8 and (value >> 8) as u8. -/
def write_reg (reg : Register) (v : Nat) (s : St) : Except Error Unit × St :=
  i2cWrite [reg.addr, v % 256, (v >>> 8) % 256] s

/-- Stmpe1600Device::write_reg8 in src/src/device.rs. -/
def write_reg8 (reg : Register) (v : Nat) (s : St) : Except Error Unit × St :=
  i2cWrite [reg.addr, v % 256] s

/-- The loop body array of Stmpe1600Device::get_interrupts: starting from
[false; 16], set entry i to true when mask & (1 << i) == 1 << i. -/
def interruptArray (mask : Nat) : List Bool :=
  (List.range 16).foldl
    (fun arr i => if mask &&& (1 <<< i) = 1 <<< i then arr.set i true else arr)
    (List.replicate 16 false)

/-- Stmpe1600Device::get_interrupts in src/src/device.rs. -/
def get_interrupts (s : St) : Except Error (List Bool) × St :=
  match read_reg .ISGPIOR s with
  | (.error e, s1) => (.error e, s1)
  | (.ok mask, s1) => (.ok (interruptArray mask), s1)

/-- Stmpe1600Device::init in src/src/device.rs: read the chip identifier,
fail with InvalidDeviceID when it differs from DEVICE_ID, otherwise issue
the soft reset write (SystemControl, 0x80). -/
def init (s : St) : Except Error Unit × St :=
  match read_reg .ChipID s with
  | (.error e, s1) => (.error e, s1)
  | (.ok v, s1) =>
    if v ≠ DEVICE_ID then (.error .InvalidDeviceID, s1)
    else write_reg8 .SystemControl 0x80 s1

/-- The builder configuration, from Stmpe1600Builder in src/src/builder.rs. -/
structure Builder where
  pins : List PinMode
  address : Nat
  useInterrupts : Bool
  interruptPolarity : InterruptPolarity
deriving DecidableEq, Repr

/-- Stmpe1600Builder::new: all 16 pins default to Input, address defaults
to DEFAULT_ADDRESS, interrupts disabled. -/
def Builder.new : Builder :=
  { pins := List.replicate 16 PinMode.Input
    address := DEFAULT_ADDRESS
    useInterrupts := false
    interruptPolarity := .Low }

/-- Stmpe1600Builder::set_pin in src/src/builder.rs: assert!(pin < 16) then
store the mode.  The assertion failure (a Rust panic) is modelled as none. -/
def Builder.set_pin (b : Builder) (pin : Nat) (mode : PinMode) : Option Builder :=
  if pin < 16 then some { b with pins := b.pins.set pin mode } else none

/-- Stmpe1600Builder::pin: delegates to set_pin. -/
def Builder.pinConfig (b : Builder) (pin : Nat) (mode : PinMode) : Option Builder :=
  b.set_pin pin mode

/-- Stmpe1600Builder::pins: set_pin over each listed pin in order; the first
out-of-range pin panics (none). -/
def Builder.pinsConfig (b : Builder) (ps : List Nat) (mode : PinMode) : Option Builder :=
  ps.foldl (fun ob p => ob.bind (fun b2 => b2.set_pin p mode)) (some b)

/-- The mask accumulation loop of Stmpe1600Builder::build: for (i, pin) in
pins.iter().enumerate, Output sets bit i of gpdr, Interrupt sets bit i of
iegpior, Input leaves both. -/
def buildMasksAux : List PinMode → Nat → Nat → Nat → Nat × Nat
  | [], _, g, ie => (g, ie)
  | .Input :: rest, i, g, ie => buildMasksAux rest (i + 1) g ie
  | .Output :: rest, i, g, ie => buildMasksAux rest (i + 1) (g ||| (1 <<< i)) ie
  | .Interrupt :: rest, i, g, ie => buildMasksAux rest (i + 1) g (ie ||| (1 <<< i))

/-- The two bulk register values computed by Stmpe1600Builder::build. -/
def buildMasks (pins : List PinMode) : Nat × Nat :=
  buildMasksAux pins 0 0 0

/-- Stmpe1600Builder::build in src/src/builder.rs: construct the device
(init), write the two bulk direction / interrupt-enable masks, optionally
enable chip interrupt generation, and on success install the configured
pin mode table. -/
def Builder.build (b : Builder) (s0 : St) : Except Error Unit × St :=
  let s := { s0 with addr := b.address }
  match init s with
  | (.error e, s1) => (.error e, s1)
  | (.ok _, s1) =>
    let masks := buildMasks b.pins
    match write_reg .GPDR masks.1 s1 with
    | (.error e, s2) => (.error e, s2)
    | (.ok _, s2) =>
      match write_reg .IEGPIOR masks.2 s2 with
      | (.error e, s3) => (.error e, s3)
      | (.ok _, s3) =>
        if b.useInterrupts then
          match read_reg8 .SystemControl s3 with
          | (.error e, s4) => (.error e, s4)
          | (.ok scb, s4) =>
            let polarity := match b.interruptPolarity with
              | .Low => 0x00
              | .High => 0x01
            match write_reg8 .SystemControl (scb ||| 0x04 ||| polarity) s4 with
            | (.error e, s5) => (.error e, s5)
            | (.ok _, s5) =>
              match read_reg .GPMR s5 with
              | (.error e, s6) => (.error e, s6)
              | (.ok _, s6) => (.ok (), { s6 with pins := b.pins })
        else (.ok (), { s3 with pins := b.pins })

/-- Pin of mode Input, into_output_pin (src/src/pins.rs lines 70 to 78):
read GPDR, set bit pin, write it back, then record Output in the pin mode
table. -/
def PinInput.into_output_pin (pin : Nat) (s : St) : Except Error Unit × St :=
  match read_reg .GPDR s with
  | (.error e, s1) => (.error e, s1)
  | (.ok gpdr, s1) =>
    match write_reg .GPDR (gpdr ||| (1 <<< pin)) s1 with
    | (.error e, s2) => (.error e, s2)
    | (.ok _, s2) => (.ok (), { s2 with pins := s2.pins.set pin .Output })

/-- Pin of mode Input, into_interrupt_pin (src/src/pins.rs lines 81 to 89). -/
def PinInput.into_interrupt_pin (pin : Nat) (s : St) : Except Error Unit × St :=
  match read_reg .IEGPIOR s with
  | (.error e, s1) => (.error e, s1)
  | (.ok iegpior, s1) =>
    match write_reg .IEGPIOR (iegpior ||| (1 <<< pin)) s1 with
    | (.error e, s2) => (.error e, s2)
    | (.ok _, s2) => (.ok (), { s2 with pins := s2.pins.set pin .Interrupt })

/-- Pin of mode Output, into_input_pin (src/src/pins.rs lines 114 to 122):
clear the direction bit (gpdr &= !(1 << pin), a u16 complement, hence the
explicit 16-bit mask). -/
def PinOutput.into_input_pin (pin : Nat) (s : St) : Except Error Unit × St :=
  match read_reg .GPDR s with
  | (.error e, s1) => (.error e, s1)
  | (.ok gpdr, s1) =>
    match write_reg .GPDR (gpdr &&& (0xFFFF ^^^ (1 <<< pin))) s1 with
    | (.error e, s2) => (.error e, s2)
    | (.ok _, s2) => (.ok (), { s2 with pins := s2.pins.set pin .Input })

/-- Pin of mode Output, into_interrupt_pin (src/src/pins.rs lines 125 to
136): clear the direction bit, then set the interrupt-enable bit; the pin
mode table is only written after both register sequences succeeded. -/
def PinOutput.into_interrupt_pin (pin : Nat) (s : St) : Except Error Unit × St :=
  match read_reg .GPDR s with
  | (.error e, s1) => (.error e, s1)
  | (.ok gpdr, s1) =>
    match write_reg .GPDR (gpdr &&& (0xFFFF ^^^ (1 <<< pin))) s1 with
    | (.error e, s2) => (.error e, s2)
    | (.ok _, s2) =>
      match read_reg .IEGPIOR s2 with
      | (.error e, s3) => (.error e, s3)
      | (.ok iegpior, s3) =>
        match write_reg .IEGPIOR (iegpior ||| (1 <<< pin)) s3 with
        | (.error e, s4) => (.error e, s4)
        | (.ok _, s4) => (.ok (), { s4 with pins := s4.pins.set pin .Interrupt })

/-- Pin of mode Interrupt, into_input_pin (src/src/pins.rs lines 167 to
175): clear the interrupt-enable bit. -/
def PinInterrupt.into_input_pin (pin : Nat) (s : St) : Except Error Unit × St :=
  match read_reg .IEGPIOR s with
  | (.error e, s1) => (.error e, s1)
  | (.ok iegpior, s1) =>
    match write_reg .IEGPIOR (iegpior &&& (0xFFFF ^^^ (1 <<< pin))) s1 with
    | (.error e, s2) => (.error e, s2)
    | (.ok _, s2) => (.ok (), { s2 with pins := s2.pins.set pin .Input })

/-- Pin of mode Interrupt, into_output_pin (src/src/pins.rs lines 178 to
189): set the direction bit, then clear the interrupt-enable bit; the pin
mode table is only written after both register sequences succeeded. -/
def PinInterrupt.into_output_pin (pin : Nat) (s : St) : Except Error Unit × St :=
  match read_reg .GPDR s with
  | (.error e, s1) => (.error e, s1)
  | (.ok gpdr, s1) =>
    match write_reg .GPDR (gpdr ||| (1 <<< pin)) s1 with
    | (.error e, s2) => (.error e, s2)
    | (.ok _, s2) =>
      match read_reg .IEGPIOR s2 with
      | (.error e, s3) => (.error e, s3)
      | (.ok iegpior, s3) =>
        match write_reg .IEGPIOR (iegpior &&& (0xFFFF ^^^ (1 <<< pin))) s3 with
        | (.error e, s4) => (.error e, s4)
        | (.ok _, s4) => (.ok (), { s4 with pins := s4.pins.set pin .Output })

/-- is_high of InputPin for Pin of mode Input (src/src/pins.rs lines 103 to
106): read GPMR and test bit pin.  Note that the source performs no pin
mode check and can not fail with IncorrectPinMode. -/
def PinInput.is_high (pin : Nat) (s : St) : Except Error Bool × St :=
  match read_reg .GPMR s with
  | (.error e, s1) => (.error e, s1)
  | (.ok mask, s1) => (.ok (decide (mask &&& (1 <<< pin) = 1 <<< pin)), s1)

/-- is_low of InputPin for Pin of mode Input (src/src/pins.rs lines 98 to
101). -/
def PinInput.is_low (pin : Nat) (s : St) : Except Error Bool × St :=
  match read_reg .GPMR s with
  | (.error e, s1) => (.error e, s1)
  | (.ok mask, s1) => (.ok (decide (mask &&& (1 <<< pin) = 0)), s1)

/-- set_high of OutputPin for Pin of mode Output (src/src/pins.rs lines 153
to 159): read GPSR and write it back with bit pin set. -/
def PinOutput.set_high (pin : Nat) (s : St) : Except Error Unit × St :=
  match read_reg .GPSR s with
  | (.error e, s1) => (.error e, s1)
  | (.ok mask, s1) => write_reg .GPSR (mask ||| (1 <<< pin)) s1

/-- set_low of OutputPin for Pin of mode Output (src/src/pins.rs lines 145
to 151): read GPSR and write it back with bit pin cleared (u16 complement
mask). -/
def PinOutput.set_low (pin : Nat) (s : St) : Except Error Unit × St :=
  match read_reg .GPSR s with
  | (.error e, s1) => (.error e, s1)
  | (.ok mask, s1) => write_reg .GPSR (mask &&& (0xFFFF ^^^ (1 <<< pin))) s1

/-- The write_level operation of the spec, dispatching to set_high or
set_low of the Output pin. -/
def PinOutput.write_level (pin : Nat) (v : Bool) (s : St) : Except Error Unit × St :=
  if v then PinOutput.set_high pin s else PinOutput.set_low pin s

/-- Stmpe1600::get in src/src/lib.rs lines 134 to 138: assert!(pin < 16)
(modelled as none on failure), then read GPMR and test bit pin.  The
source consults neither the pin mode table nor any other mode storage. -/
def Stmpe1600.get (pin : Nat) (s : St) : Option (Except Error Bool × St) :=
  if pin < 16 then
    some (match read_reg .GPMR s with
      | (.error e, s1) => (.error e, s1)
      | (.ok gpmr, s1) => (.ok (decide (gpmr &&& (1 <<< pin) = 1 <<< pin)), s1))
  else none

/-- Stmpe1600::set in src/src/lib.rs lines 159 to 169: assert!(pin < 16),
then read-modify-write GPSR. -/
def Stmpe1600.set (pin : Nat) (value : Bool) (s : St) : Option (Except Error Unit × St) :=
  if pin < 16 then
    some (match read_reg .GPSR s with
      | (.error e, s1) => (.error e, s1)
      | (.ok gpsr, s1) =>
        if value then write_reg .GPSR (gpsr ||| (1 <<< pin)) s1
        else write_reg .GPSR (gpsr &&& (0xFFFF ^^^ (1 <<< pin))) s1)
  else none

/-- The mode transition of a pin from m1 to m2, dispatching to the source
function on the typestate pin handle for m1.  The typestate API of
src/src/pins.rs provides no self-transition function at all: a handle of
mode m already is its own target, no code runs, so the self cases are the
identity on the driver state. -/
def modeTransition (m1 m2 : PinMode) (pin : Nat) (s : St) : Except Error Unit × St :=
  match m1, m2 with
  | .Input, .Output => PinInput.into_output_pin pin s
  | .Input, .Interrupt => PinInput.into_interrupt_pin pin s
  | .Output, .Input => PinOutput.into_input_pin pin s
  | .Output, .Interrupt => PinOutput.into_interrupt_pin pin s
  | .Interrupt, .Input => PinInterrupt.into_input_pin pin s
  | .Interrupt, .Output => PinInterrupt.into_output_pin pin s
  | _, _ => (.ok (), s)

/-- A chip whose identification register holds the genuine device id and
whose other registers are zero. -/
def chip0 : Chip :=
  { chipID := 0x1600, syscon := 0, iegpior := 0, isgpior := 0,
    gpmr := 0, gpsr := 0, gpdr := 0, gppir := 0, ptr := 0 }

/-- A fault-free initial driver state over chip0 with all pins Input. -/
def st0 : St :=
  { chip := chip0, faults := [], trace := [],
    pins := List.replicate 16 PinMode.Input, addr := 0x42 }

/-- Recognizer for a 16-bit register write transaction (a three-byte I2C
write whose first byte is the given register address). -/
def isRegWrite16 (r : Nat) : Tx → Bool
  | .wr _ (a :: _ :: _ :: _) => a == r
  | _ => false

/-- How many 16-bit writes to the given register address a trace contains. -/
def countRegWrites16 (r : Nat) (t : List Tx) : Nat :=
  (t.filter (isRegWrite16 r)).length

/-- A driver state whose first bus transaction is scripted to fail with bus
error code 7. -/
def stF : St := { st0 with faults := [some 7] }

/-- A chip that reports the identification value 0x0016 (wire bytes 0x16
then 0x00), which is not the DEVICE_ID of the source. -/
def stBadID : St := { st0 with chip := { chip0 with chipID := 0x0016 } }

/-- A driver state whose pin mode table says pin 0 is an Output pin, with
monitor register bit 0 high. -/
def stOut : St :=
  { st0 with
      chip := { chip0 with gpmr := 1 }
      pins := (List.replicate 16 PinMode.Input).set 0 PinMode.Output }

/-- A driver state whose pin-level set register holds 0xBEEF. -/
def stBE : St := { st0 with chip := { chip0 with gpsr := 0xBEEF } }

/-- A driver state whose interrupt status register holds 0x8001. -/
def stInt : St := { st0 with chip := { chip0 with isgpior := 0x8001 } }

/-- The pin configuration of spec scenario B: pin 1 Output, pin 2 Interrupt,
all other pins Input. -/
def cfgB : List PinMode :=
  [.Input, .Output, .Interrupt, .Input, .Input, .Input, .Input, .Input,
   .Input, .Input, .Input, .Input, .Input, .Input, .Input, .Input]

/-- A builder configured as in spec scenario B. -/
def bB : Builder := { Builder.new with pins := cfgB }

theorem hilo_eq_mod (v : Nat) : (((v >>> 8) % 256) <<< 8) ||| (v % 256) = v % 65536 := by
  have h8 : (256 : Nat) = 2 ^ 8 := by norm_num
  have h16 : (65536 : Nat) = 2 ^ 16 := by norm_num
  apply Nat.eq_of_testBit_eq
  intro i
  rw [h8, h16]
  simp only [Nat.testBit_or, Nat.testBit_shiftLeft, Nat.testBit_mod_two_pow,
    Nat.testBit_shiftRight]
  by_cases h1 : i < 8
  · simp [h1, show i < 16 by omega, show ¬ (i ≥ 8) by omega]
  · by_cases h2 : i < 16
    · have h3 : 8 + (i - 8) = i := by omega
      simp [h1, h2, show i ≥ 8 by omega, show i - 8 < 8 by omega, h3]
    · simp [h1, h2, show i ≥ 8 by omega, show ¬ (i - 8 < 8) by omega]

theorem lohi_eq_mod (v : Nat) : (v % 256) ||| (((v >>> 8) % 256) <<< 8) = v % 65536 := by
  rw [Nat.lor_comm]
  exact hilo_eq_mod v

theorem getReg_ptr_irrel (c : Chip) (x a : Nat) : getReg { c with ptr := x } a = getReg c a := by
  simp [getReg]

theorem and_shift_eq_iff (m p : Nat) : (m &&& (1 <<< p) = 1 <<< p) ↔ m.testBit p = true := by
  rw [Nat.one_shiftLeft]
  constructor
  · intro h
    have h2 := congrArg (fun x => Nat.testBit x p) h
    simpa [Nat.testBit_and, Nat.testBit_two_pow_self] using h2
  · intro h
    apply Nat.eq_of_testBit_eq
    intro i
    simp only [Nat.testBit_and, Nat.testBit_two_pow]
    by_cases hip : p = i
    · subst hip
      simp [h]
    · simp [hip]

theorem testBit_or_one_shift (a p i : Nat) :
    (a ||| (1 <<< p)).testBit i = (a.testBit i || decide (p = i)) := by
  simp [Nat.one_shiftLeft, Nat.testBit_or, Nat.testBit_two_pow]

theorem testBit_and_mask16 (a p i : Nat) (hi : i < 16) :
    (a &&& (0xFFFF ^^^ (1 <<< p))).testBit i = (a.testBit i && !(decide (p = i))) := by
  have hffff : (0xFFFF : Nat) = 2 ^ 16 - 1 := by norm_num
  rw [hffff, Nat.one_shiftLeft]
  simp only [Nat.testBit_and, Nat.testBit_xor, Nat.testBit_two_pow_sub_one,
    Nat.testBit_two_pow]
  simp only [hi, decide_eq_true_eq]
  cases hb : decide (p = i) <;> simp [hb, hi]

theorem testBit_mod65536 (a i : Nat) (hi : i < 16) : (a % 65536).testBit i = a.testBit i := by
  have h16 : (65536 : Nat) = 2 ^ 16 := by norm_num
  rw [h16]
  simp only [Nat.testBit_mod_two_pow]
  simp [hi]

theorem read_reg_ok (reg : Register) (s : St) (hf : s.faults = []) :
    read_reg reg s =
      (.ok (getReg s.chip reg.addr % 65536),
       { s with
           chip := { s.chip with ptr := reg.addr }
           trace := s.trace ++ [.wr s.addr [reg.addr],
             .rd s.addr [getReg s.chip reg.addr % 256,
               (getReg s.chip reg.addr >>> 8) % 256]] }) := by
  obtain ⟨c, f, t, p, a⟩ := s
  simp only at hf
  subst hf
  simp only [read_reg, i2cWrite, i2cRead, chipWrite, chipReadBytes, List.getD]
  simp [getReg_ptr_irrel, hilo_eq_mod]

theorem read_reg8_ok (reg : Register) (s : St) (hf : s.faults = []) :
    read_reg8 reg s =
      (.ok (getReg s.chip reg.addr % 256),
       { s with
           chip := { s.chip with ptr := reg.addr }
           trace := s.trace ++ [.wr s.addr [reg.addr],
             .rd s.addr [getReg s.chip reg.addr % 256]] }) := by
  obtain ⟨c, f, t, p, a⟩ := s
  simp only at hf
  subst hf
  simp only [read_reg8, i2cWrite, i2cRead, chipWrite, chipReadBytes, List.getD]
  simp [getReg_ptr_irrel]

theorem write_reg_ok (reg : Register) (v : Nat) (s : St) (hf : s.faults = []) :
    write_reg reg v s =
      (.ok (),
       { s with
           chip := chipSet16 s.chip reg.addr (v % 65536)
           trace := s.trace ++ [.wr s.addr [reg.addr, v % 256, (v >>> 8) % 256]] }) := by
  obtain ⟨c, f, t, p, a⟩ := s
  simp only at hf
  subst hf
  simp only [write_reg, i2cWrite, chipWrite]
  simp [lohi_eq_mod]

theorem write_reg8_ok (reg : Register) (v : Nat) (s : St) (hf : s.faults = []) :
    write_reg8 reg v s =
      (.ok (),
       { s with
           chip := chipSet8 s.chip reg.addr (v % 256)
           trace := s.trace ++ [.wr s.addr [reg.addr, v % 256]] }) := by
  obtain ⟨c, f, t, p, a⟩ := s
  simp only at hf
  subst hf
  simp only [write_reg8, i2cWrite, chipWrite]

theorem pinInput_into_output_pin_eq (pin : Nat) (s : St) (hf : s.faults = []) :
    PinInput.into_output_pin pin s =
      (.ok (),
       { s with
           chip := { s.chip with
                       gpdr := ((s.chip.gpdr % 65536) ||| (1 <<< pin)) % 65536
                       ptr := 0x14 }
           trace := s.trace ++ [.wr s.addr [0x14],
             .rd s.addr [s.chip.gpdr % 256, (s.chip.gpdr >>> 8) % 256],
             .wr s.addr [0x14, ((s.chip.gpdr % 65536) ||| (1 <<< pin)) % 256,
               (((s.chip.gpdr % 65536) ||| (1 <<< pin)) >>> 8) % 256]]
           pins := s.pins.set pin PinMode.Output }) := by
  obtain ⟨c, f, t, p, a⟩ := s
  simp only at hf
  subst hf
  simp [PinInput.into_output_pin, read_reg_ok, write_reg_ok, Register.addr,
    chipSet16, getReg, getReg_ptr_irrel]

theorem pinInput_into_interrupt_pin_eq (pin : Nat) (s : St) (hf : s.faults = []) :
    PinInput.into_interrupt_pin pin s =
      (.ok (),
       { s with
           chip := { s.chip with
                       iegpior := ((s.chip.iegpior % 65536) ||| (1 <<< pin)) % 65536
                       ptr := 0x08 }
           trace := s.trace ++ [.wr s.addr [0x08],
             .rd s.addr [s.chip.iegpior % 256, (s.chip.iegpior >>> 8) % 256],
             .wr s.addr [0x08, ((s.chip.iegpior % 65536) ||| (1 <<< pin)) % 256,
               (((s.chip.iegpior % 65536) ||| (1 <<< pin)) >>> 8) % 256]]
           pins := s.pins.set pin PinMode.Interrupt }) := by
  obtain ⟨c, f, t, p, a⟩ := s
  simp only at hf
  subst hf
  simp [PinInput.into_interrupt_pin, read_reg_ok, write_reg_ok, Register.addr,
    chipSet16, getReg, getReg_ptr_irrel]

theorem pinOutput_into_input_pin_eq (pin : Nat) (s : St) (hf : s.faults = []) :
    PinOutput.into_input_pin pin s =
      (.ok (),
       { s with
           chip := { s.chip with
                       gpdr := ((s.chip.gpdr % 65536) &&& (0xFFFF ^^^ (1 <<< pin))) % 65536
                       ptr := 0x14 }
           trace := s.trace ++ [.wr s.addr [0x14],
             .rd s.addr [s.chip.gpdr % 256, (s.chip.gpdr >>> 8) % 256],
             .wr s.addr [0x14, ((s.chip.gpdr % 65536) &&& (0xFFFF ^^^ (1 <<< pin))) % 256,
               (((s.chip.gpdr % 65536) &&& (0xFFFF ^^^ (1 <<< pin))) >>> 8) % 256]]
           pins := s.pins.set pin PinMode.Input }) := by
  obtain ⟨c, f, t, p, a⟩ := s
  simp only at hf
  subst hf
  simp [PinOutput.into_input_pin, read_reg_ok, write_reg_ok, Register.addr,
    chipSet16, getReg, getReg_ptr_irrel]

theorem pinOutput_into_interrupt_pin_eq (pin : Nat) (s : St) (hf : s.faults = []) :
    PinOutput.into_interrupt_pin pin s =
      (.ok (),
       { s with
           chip := { s.chip with
                       gpdr := ((s.chip.gpdr % 65536) &&& (0xFFFF ^^^ (1 <<< pin))) % 65536
                       iegpior := ((s.chip.iegpior % 65536) ||| (1 <<< pin)) % 65536
                       ptr := 0x08 }
           trace := s.trace ++ [.wr s.addr [0x14],
             .rd s.addr [s.chip.gpdr % 256, (s.chip.gpdr >>> 8) % 256],
             .wr s.addr [0x14, ((s.chip.gpdr % 65536) &&& (0xFFFF ^^^ (1 <<< pin))) % 256,
               (((s.chip.gpdr % 65536) &&& (0xFFFF ^^^ (1 <<< pin))) >>> 8) % 256],
             .wr s.addr [0x08],
             .rd s.addr [s.chip.iegpior % 256, (s.chip.iegpior >>> 8) % 256],
             .wr s.addr [0x08, ((s.chip.iegpior % 65536) ||| (1 <<< pin)) % 256,
               (((s.chip.iegpior % 65536) ||| (1 <<< pin)) >>> 8) % 256]]
           pins := s.pins.set pin PinMode.Interrupt }) := by
  obtain ⟨c, f, t, p, a⟩ := s
  simp only at hf
  subst hf
  simp [PinOutput.into_interrupt_pin, read_reg_ok, write_reg_ok, Register.addr,
    chipSet16, getReg, getReg_ptr_irrel]

theorem pinInterrupt_into_input_pin_eq (pin : Nat) (s : St) (hf : s.faults = []) :
    PinInterrupt.into_input_pin pin s =
      (.ok (),
       { s with
           chip := { s.chip with
                       iegpior := ((s.chip.iegpior % 65536) &&& (0xFFFF ^^^ (1 <<< pin))) % 65536
                       ptr := 0x08 }
           trace := s.trace ++ [.wr s.addr [0x08],
             .rd s.addr [s.chip.iegpior % 256, (s.chip.iegpior >>> 8) % 256],
             .wr s.addr [0x08, ((s.chip.iegpior % 65536) &&& (0xFFFF ^^^ (1 <<< pin))) % 256,
               (((s.chip.iegpior % 65536) &&& (0xFFFF ^^^ (1 <<< pin))) >>> 8) % 256]]
           pins := s.pins.set pin PinMode.Input }) := by
  obtain ⟨c, f, t, p, a⟩ := s
  simp only at hf
  subst hf
  simp [PinInterrupt.into_input_pin, read_reg_ok, write_reg_ok, Register.addr,
    chipSet16, getReg, getReg_ptr_irrel]

theorem pinInterrupt_into_output_pin_eq (pin : Nat) (s : St) (hf : s.faults = []) :
    PinInterrupt.into_output_pin pin s =
      (.ok (),
       { s with
           chip := { s.chip with
                       gpdr := ((s.chip.gpdr % 65536) ||| (1 <<< pin)) % 65536
                       iegpior := ((s.chip.iegpior % 65536) &&& (0xFFFF ^^^ (1 <<< pin))) % 65536
                       ptr := 0x08 }
           trace := s.trace ++ [.wr s.addr [0x14],
             .rd s.addr [s.chip.gpdr % 256, (s.chip.gpdr >>> 8) % 256],
             .wr s.addr [0x14, ((s.chip.gpdr % 65536) ||| (1 <<< pin)) % 256,
               (((s.chip.gpdr % 65536) ||| (1 <<< pin)) >>> 8) % 256],
             .wr s.addr [0x08],
             .rd s.addr [s.chip.iegpior % 256, (s.chip.iegpior >>> 8) % 256],
             .wr s.addr [0x08, ((s.chip.iegpior % 65536) &&& (0xFFFF ^^^ (1 <<< pin))) % 256,
               (((s.chip.iegpior % 65536) &&& (0xFFFF ^^^ (1 <<< pin))) >>> 8) % 256]]
           pins := s.pins.set pin PinMode.Output }) := by
  obtain ⟨c, f, t, p, a⟩ := s
  simp only at hf
  subst hf
  simp [PinInterrupt.into_output_pin, read_reg_ok, write_reg_ok, Register.addr,
    chipSet16, getReg, getReg_ptr_irrel]

theorem pinOutput_set_high_eq (pin : Nat) (s : St) (hf : s.faults = []) :
    PinOutput.set_high pin s =
      (.ok (),
       { s with
           chip := { s.chip with
                       gpsr := ((s.chip.gpsr % 65536) ||| (1 <<< pin)) % 65536
                       ptr := 0x12 }
           trace := s.trace ++ [.wr s.addr [0x12],
             .rd s.addr [s.chip.gpsr % 256, (s.chip.gpsr >>> 8) % 256],
             .wr s.addr [0x12, ((s.chip.gpsr % 65536) ||| (1 <<< pin)) % 256,
               (((s.chip.gpsr % 65536) ||| (1 <<< pin)) >>> 8) % 256]] }) := by
  obtain ⟨c, f, t, p, a⟩ := s
  simp only at hf
  subst hf
  simp [PinOutput.set_high, read_reg_ok, write_reg_ok, Register.addr,
    chipSet16, getReg, getReg_ptr_irrel]

theorem pinOutput_set_low_eq (pin : Nat) (s : St) (hf : s.faults = []) :
    PinOutput.set_low pin s =
      (.ok (),
       { s with
           chip := { s.chip with
                       gpsr := ((s.chip.gpsr % 65536) &&& (0xFFFF ^^^ (1 <<< pin))) % 65536
                       ptr := 0x12 }
           trace := s.trace ++ [.wr s.addr [0x12],
             .rd s.addr [s.chip.gpsr % 256, (s.chip.gpsr >>> 8) % 256],
             .wr s.addr [0x12, ((s.chip.gpsr % 65536) &&& (0xFFFF ^^^ (1 <<< pin))) % 256,
               (((s.chip.gpsr % 65536) &&& (0xFFFF ^^^ (1 <<< pin))) >>> 8) % 256]] }) := by
  obtain ⟨c, f, t, p, a⟩ := s
  simp only at hf
  subst hf
  simp [PinOutput.set_low, read_reg_ok, write_reg_ok, Register.addr,
    chipSet16, getReg, getReg_ptr_irrel]

theorem i2cWrite_pins (bs : List Nat) (s : St) : ((i2cWrite bs s).2).pins = s.pins := by
  obtain ⟨c, f, t, p, a⟩ := s
  rcases f with _ | ⟨_ | e, rest⟩ <;> simp [i2cWrite]

theorem i2cRead_pins (n : Nat) (s : St) : ((i2cRead n s).2).pins = s.pins := by
  obtain ⟨c, f, t, p, a⟩ := s
  rcases f with _ | ⟨_ | e, rest⟩ <;> simp [i2cRead]

theorem i2cWrite_faults_sub (bs : List Nat) (s : St) (x : Option Nat)
    (h : x ∈ ((i2cWrite bs s).2).faults) : x ∈ s.faults := by
  obtain ⟨c, f, t, p, a⟩ := s
  rcases f with _ | ⟨_ | e, rest⟩ <;> simp [i2cWrite] at h ⊢ <;> simp [h]

theorem i2cRead_faults_sub (n : Nat) (s : St) (x : Option Nat)
    (h : x ∈ ((i2cRead n s).2).faults) : x ∈ s.faults := by
  obtain ⟨c, f, t, p, a⟩ := s
  rcases f with _ | ⟨_ | e, rest⟩ <;> simp [i2cRead] at h ⊢ <;> simp [h]

theorem i2cWrite_err (bs : List Nat) (s : St) (e : Error)
    (h : (i2cWrite bs s).1 = .error e) : ∃ c, e = .I2CError c ∧ some c ∈ s.faults := by
  obtain ⟨c, f, t, p, a⟩ := s
  rcases f with _ | ⟨_ | e0, rest⟩ <;> simp [i2cWrite] at h ⊢
  exact ⟨e0, h.symm, Or.inl rfl⟩

theorem i2cRead_err (n : Nat) (s : St) (e : Error)
    (h : (i2cRead n s).1 = .error e) : ∃ c, e = .I2CError c ∧ some c ∈ s.faults := by
  obtain ⟨c, f, t, p, a⟩ := s
  rcases f with _ | ⟨_ | e0, rest⟩ <;> simp [i2cRead] at h ⊢
  exact ⟨e0, h.symm, Or.inl rfl⟩

theorem read_reg_pins (reg : Register) (s : St) : ((read_reg reg s).2).pins = s.pins := by
  unfold read_reg
  rcases h1 : i2cWrite [reg.addr] s with ⟨r1, s1⟩
  have hp1 : s1.pins = s.pins := by
    have h2 := i2cWrite_pins [reg.addr] s
    rw [h1] at h2
    exact h2
  cases r1 with
  | error e => simpa using hp1
  | ok _ =>
    rcases h3 : i2cRead 2 s1 with ⟨r2, s2⟩
    have hp2 : s2.pins = s1.pins := by
      have h4 := i2cRead_pins 2 s1
      rw [h3] at h4
      exact h4
    cases r2 <;> simp [h3, hp2, hp1]

theorem read_reg_faults_sub (reg : Register) (s : St) (x : Option Nat)
    (h : x ∈ ((read_reg reg s).2).faults) : x ∈ s.faults := by
  unfold read_reg at h
  split at h
  next e1 s1 heq =>
    simp only at h
    exact i2cWrite_faults_sub _ _ _ (by rw [heq]; exact h)
  next v s1 heq =>
    split at h
    next e2 s2 heq2 =>
      simp only at h
      exact i2cWrite_faults_sub _ _ _ (by
        rw [heq]
        exact i2cRead_faults_sub _ _ _ (by rw [heq2]; exact h))
    next buf s2 heq2 =>
      simp only at h
      exact i2cWrite_faults_sub _ _ _ (by
        rw [heq]
        exact i2cRead_faults_sub _ _ _ (by rw [heq2]; exact h))

theorem read_reg_err (reg : Register) (s : St) (e : Error)
    (h : (read_reg reg s).1 = .error e) : ∃ c, e = .I2CError c ∧ some c ∈ s.faults := by
  unfold read_reg at h
  split at h
  next e1 s1 heq =>
    simp only [Except.error.injEq] at h
    exact h ▸ i2cWrite_err _ _ _ (by rw [heq])
  next v s1 heq =>
    split at h
    next e2 s2 heq2 =>
      simp only [Except.error.injEq] at h
      obtain ⟨c, hc, hm⟩ := i2cRead_err 2 s1 e2 (by rw [heq2])
      exact ⟨c, h ▸ hc, i2cWrite_faults_sub _ _ _ (by rw [heq]; exact hm)⟩
    next buf s2 heq2 => simp at h

theorem write_reg_pins (reg : Register) (v : Nat) (s : St) :
    ((write_reg reg v s).2).pins = s.pins :=
  i2cWrite_pins _ _

theorem write_reg_faults_sub (reg : Register) (v : Nat) (s : St) (x : Option Nat)
    (h : x ∈ ((write_reg reg v s).2).faults) : x ∈ s.faults :=
  i2cWrite_faults_sub _ _ _ h

theorem write_reg_err (reg : Register) (v : Nat) (s : St) (e : Error)
    (h : (write_reg reg v s).1 = .error e) : ∃ c, e = .I2CError c ∧ some c ∈ s.faults :=
  i2cWrite_err _ _ _ h

theorem rmw_set_err (reg : Register) (f : Nat → Nat) (pin : Nat) (m : PinMode)
    (s s2 : St) (e : Error)
    (h : (match read_reg reg s with
          | (.error e, s1) => ((.error e : Except Error Unit), s1)
          | (.ok v, s1) =>
            match write_reg reg (f v) s1 with
            | (.error e, s2) => (.error e, s2)
            | (.ok _, s2) => (.ok (), { s2 with pins := s2.pins.set pin m }))
         = (.error e, s2)) :
    (∃ c, e = Error.I2CError c ∧ some c ∈ s.faults) ∧ s2.pins = s.pins := by
  split at h
  next e1 s1 heq =>
    simp only [Prod.mk.injEq, Except.error.injEq] at h
    obtain ⟨he, hs⟩ := h
    have hp1 : s1.pins = s.pins := by
      have hx := read_reg_pins reg s
      rw [heq] at hx
      exact hx
    exact ⟨he ▸ read_reg_err reg s e1 (by rw [heq]), hs ▸ hp1⟩
  next v s1 heq =>
    have hp1 : s1.pins = s.pins := by
      have hx := read_reg_pins reg s
      rw [heq] at hx
      exact hx
    split at h
    next e2 sx heq2 =>
      simp only [Prod.mk.injEq, Except.error.injEq] at h
      obtain ⟨he, hs⟩ := h
      have hp2 : sx.pins = s1.pins := by
        have hx := write_reg_pins reg (f v) s1
        rw [heq2] at hx
        exact hx
      obtain ⟨c, hc, hm⟩ := write_reg_err reg (f v) s1 e2 (by rw [heq2])
      refine ⟨⟨c, he ▸ hc, read_reg_faults_sub _ _ _ (by rw [heq]; exact hm)⟩, ?_⟩
      rw [← hs, hp2, hp1]
    next u sx heq2 => simp at h

theorem rmw2_set_err (regA regB : Register) (fA fB : Nat → Nat) (pin : Nat) (m : PinMode)
    (s s2 : St) (e : Error)
    (h : (match read_reg regA s with
          | (.error e, s1) => ((.error e : Except Error Unit), s1)
          | (.ok v, s1) =>
            match write_reg regA (fA v) s1 with
            | (.error e, s2) => (.error e, s2)
            | (.ok _, s2) =>
              match read_reg regB s2 with
              | (.error e, s3) => (.error e, s3)
              | (.ok w, s3) =>
                match write_reg regB (fB w) s3 with
                | (.error e, s4) => (.error e, s4)
                | (.ok _, s4) => (.ok (), { s4 with pins := s4.pins.set pin m }))
         = (.error e, s2)) :
    (∃ c, e = Error.I2CError c ∧ some c ∈ s.faults) ∧ s2.pins = s.pins := by
  split at h
  next e1 s1 heq =>
    simp only [Prod.mk.injEq, Except.error.injEq] at h
    obtain ⟨he, hs⟩ := h
    have hp1 : s1.pins = s.pins := by
      have hx := read_reg_pins regA s
      rw [heq] at hx
      exact hx
    exact ⟨he ▸ read_reg_err regA s e1 (by rw [heq]), hs ▸ hp1⟩
  next v s1 heq =>
    have hp1 : s1.pins = s.pins := by
      have hx := read_reg_pins regA s
      rw [heq] at hx
      exact hx
    have hm1 : ∀ x, x ∈ s1.faults → x ∈ s.faults := by
      intro x hx
      exact read_reg_faults_sub _ _ _ (by rw [heq]; exact hx)
    split at h
    next e2 sb heq2 =>
      simp only [Prod.mk.injEq, Except.error.injEq] at h
      obtain ⟨he, hs⟩ := h
      have hp2 : sb.pins = s1.pins := by
        have hx := write_reg_pins regA (fA v) s1
        rw [heq2] at hx
        exact hx
      obtain ⟨c, hc, hm⟩ := write_reg_err regA (fA v) s1 e2 (by rw [heq2])
      refine ⟨⟨c, he ▸ hc, hm1 _ hm⟩, ?_⟩
      rw [← hs, hp2, hp1]
    next u sb heq2 =>
      have hp2 : sb.pins = s1.pins := by
        have hx := write_reg_pins regA (fA v) s1
        rw [heq2] at hx
        exact hx
      have hm2 : ∀ x, x ∈ sb.faults → x ∈ s.faults := by
        intro x hx
        exact hm1 x (write_reg_faults_sub _ _ _ _ (by rw [heq2]; exact hx))
      split at h
      next e3 sc heq3 =>
        simp only [Prod.mk.injEq, Except.error.injEq] at h
        obtain ⟨he, hs⟩ := h
        have hp3 : sc.pins = sb.pins := by
          have hx := read_reg_pins regB sb
          rw [heq3] at hx
          exact hx
        obtain ⟨c, hc, hm⟩ := read_reg_err regB sb e3 (by rw [heq3])
        refine ⟨⟨c, he ▸ hc, hm2 _ hm⟩, ?_⟩
        rw [← hs, hp3, hp2, hp1]
      next w sc heq3 =>
        have hp3 : sc.pins = sb.pins := by
          have hx := read_reg_pins regB sb
          rw [heq3] at hx
          exact hx
        have hm3 : ∀ x, x ∈ sc.faults → x ∈ s.faults := by
          intro x hx
          exact hm2 x (read_reg_faults_sub _ _ _ (by rw [heq3]; exact hx))
        split at h
        next e4 sd heq4 =>
          simp only [Prod.mk.injEq, Except.error.injEq] at h
          obtain ⟨he, hs⟩ := h
          have hp4 : sd.pins = sc.pins := by
            have hx := write_reg_pins regB (fB w) sc
            rw [heq4] at hx
            exact hx
          obtain ⟨c, hc, hm⟩ := write_reg_err regB (fB w) sc e4 (by rw [heq4])
          refine ⟨⟨c, he ▸ hc, hm3 _ hm⟩, ?_⟩
          rw [← hs, hp4, hp3, hp2, hp1]
        next u2 sd heq4 => simp at h

theorem lo_byte (b0 b1 : Nat) (h0 : b0 < 256) : (b0 + 256 * b1) % 256 = b0 := by
  rw [Nat.add_mul_mod_self_left]
  exact Nat.mod_eq_of_lt h0

theorem hi_byte (b0 b1 : Nat) (h0 : b0 < 256) (h1 : b1 < 256) :
    ((b0 + 256 * b1) >>> 8) % 256 = b1 := by
  rw [Nat.shiftRight_eq_div_pow]
  have h2 : (2 : Nat) ^ 8 = 256 := by norm_num
  rw [h2, Nat.add_mul_div_left _ _ (by norm_num : (0 : Nat) < 256), Nat.div_eq_of_lt h0]
  simpa using Nat.mod_eq_of_lt h1

theorem assemble_bytes (b0 b1 : Nat) (h0 : b0 < 256) (h1 : b1 < 256) :
    (b1 <<< 8) ||| b0 = b0 + 256 * b1 := by
  have hv : (b0 + 256 * b1) % 65536 = b0 + 256 * b1 := Nat.mod_eq_of_lt (by omega)
  have h3 := hilo_eq_mod (b0 + 256 * b1)
  rw [lo_byte _ _ h0, hi_byte _ _ h0 h1, hv] at h3
  exact h3

theorem foldl_set_length (mask : Nat) (l : List Nat) (arr : List Bool) :
    (l.foldl (fun a j => if mask &&& (1 <<< j) = 1 <<< j then a.set j true else a) arr).length
      = arr.length := by
  induction l generalizing arr with
  | nil => rfl
  | cons x xs ih =>
    simp only [List.foldl_cons]
    rw [ih]
    split <;> simp

theorem foldl_set_get (mask : Nat) (n : Nat) (arr : List Bool) (i : Nat)
    (h16 : arr.length = 16) (hn : n ≤ 16) (hi : i < 16) :
    ((List.range n).foldl (fun a j => if mask &&& (1 <<< j) = 1 <<< j then a.set j true else a)
        arr)[i]? =
      if i < n ∧ mask &&& (1 <<< i) = 1 <<< i then some true else arr[i]? := by
  induction n with
  | zero => simp
  | succ n ih =>
    rw [List.range_succ, List.foldl_append, List.foldl_cons, List.foldl_nil]
    have hFlen :
        ((List.range n).foldl
          (fun a j => if mask &&& (1 <<< j) = 1 <<< j then a.set j true else a) arr).length
          = 16 := by
      rw [foldl_set_length]
      exact h16
    by_cases hc : mask &&& (1 <<< n) = 1 <<< n
    · rw [if_pos hc]
      by_cases hin : i = n
      · subst hin
        rw [List.getElem?_set_self (by rw [hFlen]; exact hi)]
        rw [if_pos ⟨Nat.lt_succ_self i, hc⟩]
      · rw [List.getElem?_set_ne (Ne.symm hin)]
        rw [ih (by omega)]
        have hiff : (i < n ∧ mask &&& (1 <<< i) = 1 <<< i)
            ↔ (i < n + 1 ∧ mask &&& (1 <<< i) = 1 <<< i) := by
          constructor
          · rintro ⟨ha, hb⟩
            exact ⟨by omega, hb⟩
          · rintro ⟨ha, hb⟩
            exact ⟨by omega, hb⟩
        rw [if_congr hiff rfl rfl]
    · rw [if_neg hc]
      rw [ih (by omega)]
      by_cases hin : i = n
      · subst hin
        rw [if_neg (by rintro ⟨ha, _⟩; omega), if_neg (by rintro ⟨_, hb⟩; exact hc hb)]
      · have hiff : (i < n ∧ mask &&& (1 <<< i) = 1 <<< i)
            ↔ (i < n + 1 ∧ mask &&& (1 <<< i) = 1 <<< i) := by
          constructor
          · rintro ⟨ha, hb⟩
            exact ⟨by omega, hb⟩
          · rintro ⟨ha, hb⟩
            exact ⟨by omega, hb⟩
        rw [if_congr hiff rfl rfl]

theorem interruptArray_length (mask : Nat) : (interruptArray mask).length = 16 := by
  unfold interruptArray
  rw [foldl_set_length]
  rfl

theorem interruptArray_getElem (mask i : Nat) (hi : i < 16) :
    (interruptArray mask)[i]? = some (mask.testBit i) := by
  unfold interruptArray
  rw [foldl_set_get mask 16 _ i (by simp) (Nat.le_refl 16) hi]
  by_cases hc : mask &&& (1 <<< i) = 1 <<< i
  · rw [if_pos ⟨hi, hc⟩, (and_shift_eq_iff mask i).mp hc]
  · rw [if_neg (by rintro ⟨_, hb⟩; exact hc hb)]
    rw [List.getElem?_replicate_of_lt hi]
    have hb : mask.testBit i = false := by
      cases hbb : mask.testBit i
      · rfl
      · exact absurd ((and_shift_eq_iff mask i).mpr hbb) hc
    rw [hb]

theorem buildMasksAux_fst_testBit (l : List PinMode) : ∀ (n g ie k : Nat),
    ((buildMasksAux l n g ie).1).testBit k
      = (g.testBit k || (decide (n ≤ k) && decide (l[k - n]? = some PinMode.Output))) := by
  induction l with
  | nil =>
    intro n g ie k
    simp [buildMasksAux]
  | cons m rest ih =>
    intro n g ie k
    cases m
    case Input =>
      simp only [buildMasksAux]
      rw [ih]
      by_cases h1 : n ≤ k
      · by_cases h2 : k = n
        · subst h2
          simp [Nat.sub_self, show ¬ (k + 1 ≤ k) by omega]
        · have h3 : n + 1 ≤ k := by omega
          have h4 : k - n = (k - (n + 1)) + 1 := by omega
          simp [h1, h3, h4]
      · have h3 : ¬ (n + 1 ≤ k) := by omega
        simp [h1, h3]
    case Output =>
      simp only [buildMasksAux]
      rw [ih, testBit_or_one_shift]
      by_cases h2 : k = n
      · subst h2
        simp [Nat.sub_self, show ¬ (k + 1 ≤ k) by omega]
      · by_cases h1 : n ≤ k
        · have h3 : n + 1 ≤ k := by omega
          have h4 : k - n = (k - (n + 1)) + 1 := by omega
          simp [h1, h3, h4, Ne.symm h2, Bool.or_assoc]
        · have h3 : ¬ (n + 1 ≤ k) := by omega
          simp [h1, h3, Ne.symm h2]
    case Interrupt =>
      simp only [buildMasksAux]
      rw [ih]
      by_cases h1 : n ≤ k
      · by_cases h2 : k = n
        · subst h2
          simp [Nat.sub_self, show ¬ (k + 1 ≤ k) by omega]
        · have h3 : n + 1 ≤ k := by omega
          have h4 : k - n = (k - (n + 1)) + 1 := by omega
          simp [h1, h3, h4]
      · have h3 : ¬ (n + 1 ≤ k) := by omega
        simp [h1, h3]

theorem buildMasksAux_snd_testBit (l : List PinMode) : ∀ (n g ie k : Nat),
    ((buildMasksAux l n g ie).2).testBit k
      = (ie.testBit k || (decide (n ≤ k) && decide (l[k - n]? = some PinMode.Interrupt))) := by
  induction l with
  | nil =>
    intro n g ie k
    simp [buildMasksAux]
  | cons m rest ih =>
    intro n g ie k
    cases m
    case Input =>
      simp only [buildMasksAux]
      rw [ih]
      by_cases h1 : n ≤ k
      · by_cases h2 : k = n
        · subst h2
          simp [Nat.sub_self, show ¬ (k + 1 ≤ k) by omega]
        · have h3 : n + 1 ≤ k := by omega
          have h4 : k - n = (k - (n + 1)) + 1 := by omega
          simp [h1, h3, h4]
      · have h3 : ¬ (n + 1 ≤ k) := by omega
        simp [h1, h3]
    case Output =>
      simp only [buildMasksAux]
      rw [ih]
      by_cases h1 : n ≤ k
      · by_cases h2 : k = n
        · subst h2
          simp [Nat.sub_self, show ¬ (k + 1 ≤ k) by omega]
        · have h3 : n + 1 ≤ k := by omega
          have h4 : k - n = (k - (n + 1)) + 1 := by omega
          simp [h1, h3, h4]
      · have h3 : ¬ (n + 1 ≤ k) := by omega
        simp [h1, h3]
    case Interrupt =>
      simp only [buildMasksAux]
      rw [ih, testBit_or_one_shift]
      by_cases h2 : k = n
      · subst h2
        simp [Nat.sub_self, show ¬ (k + 1 ≤ k) by omega]
      · by_cases h1 : n ≤ k
        · have h3 : n + 1 ≤ k := by omega
          have h4 : k - n = (k - (n + 1)) + 1 := by omega
          simp [h1, h3, h4, Ne.symm h2, Bool.or_assoc]
        · have h3 : ¬ (n + 1 ≤ k) := by omega
          simp [h1, h3, Ne.symm h2]

/-- Claim C1: for every pin index p below 16 and every ordered pair of
distinct modes, performing the mode transition of pin p (through the
into_output_pin, into_input_pin and into_interrupt_pin functions of the
typestate pin handles), when every underlying register transaction
succeeds and the direction and interrupt-enable bits of pin p agree with
the starting mode, leaves direction register bit p equal to (m2 is
Output), interrupt-enable register bit p equal to (m2 is Interrupt), and
every other bit of both registers unchanged. -/
theorem mode_transition_sets_mode_bits (m1 m2 : PinMode) (p : Nat) (s : St)
    (hp : p < 16) (hne : m1 ≠ m2) (hf : s.faults = [])
    (hd : s.chip.gpdr.testBit p = decide (m1 = PinMode.Output))
    (hi : s.chip.iegpior.testBit p = decide (m1 = PinMode.Interrupt)) :
    (modeTransition m1 m2 p s).1 = .ok () ∧
    ((modeTransition m1 m2 p s).2).chip.gpdr.testBit p = decide (m2 = PinMode.Output) ∧
    ((modeTransition m1 m2 p s).2).chip.iegpior.testBit p = decide (m2 = PinMode.Interrupt) ∧
    ∀ i, i < 16 → i ≠ p →
      ((modeTransition m1 m2 p s).2).chip.gpdr.testBit i = s.chip.gpdr.testBit i ∧
      ((modeTransition m1 m2 p s).2).chip.iegpior.testBit i = s.chip.iegpior.testBit i := by
  cases m1 <;> cases m2
  case Input.Input => exact absurd rfl hne
  case Output.Output => exact absurd rfl hne
  case Interrupt.Interrupt => exact absurd rfl hne
  case Input.Output =>
    simp only [modeTransition]
    rw [pinInput_into_output_pin_eq p s hf]
    refine ⟨rfl, ?_, ?_, ?_⟩
    · show (((s.chip.gpdr % 65536) ||| (1 <<< p)) % 65536).testBit p = true
      rw [testBit_mod65536 _ _ hp, testBit_or_one_shift]
      simp
    · show s.chip.iegpior.testBit p = false
      exact hi
    · intro i h16 hip
      refine ⟨?_, rfl⟩
      show (((s.chip.gpdr % 65536) ||| (1 <<< p)) % 65536).testBit i = s.chip.gpdr.testBit i
      rw [testBit_mod65536 _ _ h16, testBit_or_one_shift, testBit_mod65536 _ _ h16]
      simp [Ne.symm hip]
  case Input.Interrupt =>
    simp only [modeTransition]
    rw [pinInput_into_interrupt_pin_eq p s hf]
    refine ⟨rfl, ?_, ?_, ?_⟩
    · show s.chip.gpdr.testBit p = false
      exact hd
    · show (((s.chip.iegpior % 65536) ||| (1 <<< p)) % 65536).testBit p = true
      rw [testBit_mod65536 _ _ hp, testBit_or_one_shift]
      simp
    · intro i h16 hip
      refine ⟨rfl, ?_⟩
      show (((s.chip.iegpior % 65536) ||| (1 <<< p)) % 65536).testBit i = s.chip.iegpior.testBit i
      rw [testBit_mod65536 _ _ h16, testBit_or_one_shift, testBit_mod65536 _ _ h16]
      simp [Ne.symm hip]
  case Output.Input =>
    simp only [modeTransition]
    rw [pinOutput_into_input_pin_eq p s hf]
    refine ⟨rfl, ?_, ?_, ?_⟩
    · show (((s.chip.gpdr % 65536) &&& (0xFFFF ^^^ (1 <<< p))) % 65536).testBit p = false
      rw [testBit_mod65536 _ _ hp, testBit_and_mask16 _ _ _ hp]
      simp
    · show s.chip.iegpior.testBit p = false
      exact hi
    · intro i h16 hip
      refine ⟨?_, rfl⟩
      show (((s.chip.gpdr % 65536) &&& (0xFFFF ^^^ (1 <<< p))) % 65536).testBit i
        = s.chip.gpdr.testBit i
      rw [testBit_mod65536 _ _ h16, testBit_and_mask16 _ _ _ h16, testBit_mod65536 _ _ h16]
      simp [Ne.symm hip]
  case Output.Interrupt =>
    simp only [modeTransition]
    rw [pinOutput_into_interrupt_pin_eq p s hf]
    refine ⟨rfl, ?_, ?_, ?_⟩
    · show (((s.chip.gpdr % 65536) &&& (0xFFFF ^^^ (1 <<< p))) % 65536).testBit p = false
      rw [testBit_mod65536 _ _ hp, testBit_and_mask16 _ _ _ hp]
      simp
    · show (((s.chip.iegpior % 65536) ||| (1 <<< p)) % 65536).testBit p = true
      rw [testBit_mod65536 _ _ hp, testBit_or_one_shift]
      simp
    · intro i h16 hip
      constructor
      · show (((s.chip.gpdr % 65536) &&& (0xFFFF ^^^ (1 <<< p))) % 65536).testBit i
          = s.chip.gpdr.testBit i
        rw [testBit_mod65536 _ _ h16, testBit_and_mask16 _ _ _ h16, testBit_mod65536 _ _ h16]
        simp [Ne.symm hip]
      · show (((s.chip.iegpior % 65536) ||| (1 <<< p)) % 65536).testBit i
          = s.chip.iegpior.testBit i
        rw [testBit_mod65536 _ _ h16, testBit_or_one_shift, testBit_mod65536 _ _ h16]
        simp [Ne.symm hip]
  case Interrupt.Input =>
    simp only [modeTransition]
    rw [pinInterrupt_into_input_pin_eq p s hf]
    refine ⟨rfl, ?_, ?_, ?_⟩
    · show s.chip.gpdr.testBit p = false
      exact hd
    · show (((s.chip.iegpior % 65536) &&& (0xFFFF ^^^ (1 <<< p))) % 65536).testBit p = false
      rw [testBit_mod65536 _ _ hp, testBit_and_mask16 _ _ _ hp]
      simp
    · intro i h16 hip
      refine ⟨rfl, ?_⟩
      show (((s.chip.iegpior % 65536) &&& (0xFFFF ^^^ (1 <<< p))) % 65536).testBit i
        = s.chip.iegpior.testBit i
      rw [testBit_mod65536 _ _ h16, testBit_and_mask16 _ _ _ h16, testBit_mod65536 _ _ h16]
      simp [Ne.symm hip]
  case Interrupt.Output =>
    simp only [modeTransition]
    rw [pinInterrupt_into_output_pin_eq p s hf]
    refine ⟨rfl, ?_, ?_, ?_⟩
    · show (((s.chip.gpdr % 65536) ||| (1 <<< p)) % 65536).testBit p = true
      rw [testBit_mod65536 _ _ hp, testBit_or_one_shift]
      simp
    · show (((s.chip.iegpior % 65536) &&& (0xFFFF ^^^ (1 <<< p))) % 65536).testBit p = false
      rw [testBit_mod65536 _ _ hp, testBit_and_mask16 _ _ _ hp]
      simp
    · intro i h16 hip
      constructor
      · show (((s.chip.gpdr % 65536) ||| (1 <<< p)) % 65536).testBit i = s.chip.gpdr.testBit i
        rw [testBit_mod65536 _ _ h16, testBit_or_one_shift, testBit_mod65536 _ _ h16]
        simp [Ne.symm hip]
      · show (((s.chip.iegpior % 65536) &&& (0xFFFF ^^^ (1 <<< p))) % 65536).testBit i
          = s.chip.iegpior.testBit i
        rw [testBit_mod65536 _ _ h16, testBit_and_mask16 _ _ _ h16, testBit_mod65536 _ _ h16]
        simp [Ne.symm hip]

/-- Witness for claim C1 at pin 0, transition Input to Output, on the
all-Input reset state. -/
theorem mode_transition_sets_mode_bits_witness :
    (0 : Nat) < 16 ∧ PinMode.Input ≠ PinMode.Output ∧ st0.faults = [] ∧
    st0.chip.gpdr.testBit 0 = decide (PinMode.Input = PinMode.Output) ∧
    st0.chip.iegpior.testBit 0 = decide (PinMode.Input = PinMode.Interrupt) ∧
    ((modeTransition PinMode.Input PinMode.Output 0 st0).1 = .ok () ∧
     ((modeTransition PinMode.Input PinMode.Output 0 st0).2).chip.gpdr.testBit 0
       = decide (PinMode.Output = PinMode.Output) ∧
     ((modeTransition PinMode.Input PinMode.Output 0 st0).2).chip.iegpior.testBit 0
       = decide (PinMode.Output = PinMode.Interrupt) ∧
     ∀ i, i < 16 → i ≠ 0 →
       ((modeTransition PinMode.Input PinMode.Output 0 st0).2).chip.gpdr.testBit i
         = st0.chip.gpdr.testBit i ∧
       ((modeTransition PinMode.Input PinMode.Output 0 st0).2).chip.iegpior.testBit i
         = st0.chip.iegpior.testBit i) :=
  ⟨by decide, by decide, rfl, by decide, by decide,
   mode_transition_sets_mode_bits .Input .Output 0 st0 (by decide) (by decide) rfl
     (by decide) (by decide)⟩

/-- Claim C2: whenever a mode transition returns an error, that error is
the bus error of a scripted transaction fault, and the in-memory pin mode
table is exactly what it was before the transition (the table is written
only after every register transaction of the sequence succeeded). -/
theorem transition_failure_leaves_table (m1 m2 : PinMode) (pin : Nat) (s s2 : St) (e : Error)
    (h : modeTransition m1 m2 pin s = (.error e, s2)) :
    (∃ c, e = Error.I2CError c ∧ some c ∈ s.faults) ∧ s2.pins = s.pins := by
  cases m1 <;> cases m2
  case Input.Input => simp [modeTransition] at h
  case Output.Output => simp [modeTransition] at h
  case Interrupt.Interrupt => simp [modeTransition] at h
  case Input.Output =>
    unfold modeTransition PinInput.into_output_pin at h
    exact rmw_set_err .GPDR (fun v => v ||| (1 <<< pin)) pin .Output s s2 e h
  case Input.Interrupt =>
    unfold modeTransition PinInput.into_interrupt_pin at h
    exact rmw_set_err .IEGPIOR (fun v => v ||| (1 <<< pin)) pin .Interrupt s s2 e h
  case Output.Input =>
    unfold modeTransition PinOutput.into_input_pin at h
    exact rmw_set_err .GPDR (fun v => v &&& (0xFFFF ^^^ (1 <<< pin))) pin .Input s s2 e h
  case Output.Interrupt =>
    unfold modeTransition PinOutput.into_interrupt_pin at h
    exact rmw2_set_err .GPDR .IEGPIOR (fun v => v &&& (0xFFFF ^^^ (1 <<< pin)))
      (fun w => w ||| (1 <<< pin)) pin .Interrupt s s2 e h
  case Interrupt.Input =>
    unfold modeTransition PinInterrupt.into_input_pin at h
    exact rmw_set_err .IEGPIOR (fun v => v &&& (0xFFFF ^^^ (1 <<< pin))) pin .Input s s2 e h
  case Interrupt.Output =>
    unfold modeTransition PinInterrupt.into_output_pin at h
    exact rmw2_set_err .GPDR .IEGPIOR (fun v => v ||| (1 <<< pin))
      (fun w => w &&& (0xFFFF ^^^ (1 <<< pin))) pin .Output s s2 e h

/-- Witness for claim C2: the multi-step transition Output to Interrupt of
pin 0 whose first bus transaction faults with code 7 returns that bus
error and leaves the pin mode table untouched. -/
theorem transition_failure_leaves_table_witness :
    (∃ c, Error.I2CError 7 = Error.I2CError c ∧ some c ∈ stF.faults) ∧
    ((modeTransition PinMode.Output PinMode.Interrupt 0 stF).2).pins = stF.pins :=
  transition_failure_leaves_table .Output .Interrupt 0 stF _ _ rfl

/-- Claim C9: the self-transition of a pin from a mode to the same mode is
a no-op: it succeeds immediately, issues no bus transaction and leaves the
whole driver state, the pin mode table included, unchanged.  In the
typestate API of the source this transition is not even a function call,
so no register access can occur. -/
theorem self_transition_noop (m : PinMode) (pin : Nat) (s : St) :
    modeTransition m m pin s = (.ok (), s) := by
  cases m <;> rfl

/-- Counterexample to claim C3 as stated: the expected constant is not the
0x0016 the spec names.  On a chip whose identification register reads as
the 16-bit value 0x0016, construction fails with InvalidDeviceID after
the identification read, because the source constant DEVICE_ID is 0x1600
(wire bytes 0x00 then 0x16, assembled low byte first). -/
theorem init_rejects_spec_id_0x0016 :
    DEVICE_ID ≠ 0x0016 ∧
    (init stBadID).1 = .error Error.InvalidDeviceID ∧
    (init stBadID).2.trace = [.wr 0x42 [0x00], .rd 0x42 [0x16, 0x00]] :=
  ⟨by decide, rfl, rfl⟩

/-- Claim C3 as amended: with a fault-free bus, init fails with
InvalidDeviceID exactly when the 16-bit identification value read is not
0x1600; on a match it issues the soft-reset write (SystemControl, 0x80)
and succeeds, and on a mismatch it issues no further transaction beyond
the identification read and returns no session. -/
theorem init_checks_device_id (s : St) (hf : s.faults = []) :
    (s.chip.chipID % 65536 = 0x1600 →
      init s = (.ok (),
        { s with
            chip := { s.chip with syscon := 0x80, ptr := 0x03 }
            trace := s.trace ++ [.wr s.addr [0x00],
              .rd s.addr [s.chip.chipID % 256, (s.chip.chipID >>> 8) % 256],
              .wr s.addr [0x03, 0x80]] })) ∧
    (s.chip.chipID % 65536 ≠ 0x1600 →
      init s = (.error .InvalidDeviceID,
        { s with
            chip := { s.chip with ptr := 0x00 }
            trace := s.trace ++ [.wr s.addr [0x00],
              .rd s.addr [s.chip.chipID % 256, (s.chip.chipID >>> 8) % 256]] })) := by
  obtain ⟨c, f, t, p, a⟩ := s
  simp only at hf
  subst hf
  constructor
  · intro h
    simp [init, read_reg_ok, write_reg8_ok, Register.addr, getReg, chipSet8, chipSet16,
      DEVICE_ID, h]
  · intro h
    simp [init, read_reg_ok, Register.addr, getReg, DEVICE_ID, h]

/-- Witness for claim C3 on the fault-free state whose chip reports the
genuine identifier. -/
theorem init_checks_device_id_witness :
    st0.faults = [] ∧
    ((st0.chip.chipID % 65536 = 0x1600 →
      init st0 = (.ok (),
        { st0 with
            chip := { st0.chip with syscon := 0x80, ptr := 0x03 }
            trace := st0.trace ++ [.wr st0.addr [0x00],
              .rd st0.addr [st0.chip.chipID % 256, (st0.chip.chipID >>> 8) % 256],
              .wr st0.addr [0x03, 0x80]] })) ∧
    (st0.chip.chipID % 65536 ≠ 0x1600 →
      init st0 = (.error .InvalidDeviceID,
        { st0 with
            chip := { st0.chip with ptr := 0x00 }
            trace := st0.trace ++ [.wr st0.addr [0x00],
              .rd st0.addr [st0.chip.chipID % 256, (st0.chip.chipID >>> 8) % 256]] }))) :=
  ⟨rfl, init_checks_device_id st0 rfl⟩

/-- Claim C4 is contradicted by the source: reading the level of a pin
whose configured mode is Output does not fail with IncorrectPinMode and
is not free of bus transactions.  On a state whose pin mode table says
pin 0 is Output, both the deprecated get function and the is_high
function of the pin handle read the monitor register over the bus (one
address write and one two-byte read) and return the level: no code path
of the source ever constructs the IncorrectPinMode error, although the
crate doc comments and the read_from_output_pin test expect it. -/
theorem get_on_output_pin_reads_bus :
    stOut.pins[0]? = some PinMode.Output ∧
    Stmpe1600.get 0 stOut =
      some (.ok true,
        { stOut with
            chip := { stOut.chip with ptr := 0x10 }
            trace := [.wr 0x42 [0x10], .rd 0x42 [0x01, 0x00]] }) ∧
    PinInput.is_high 0 stOut =
      (.ok true,
        { stOut with
            chip := { stOut.chip with ptr := 0x10 }
            trace := [.wr 0x42 [0x10], .rd 0x42 [0x01, 0x00]] }) :=
  ⟨rfl, rfl, rfl⟩

/-- Claim C5: for every pin configuration, successful construction issues
exactly one bulk 16-bit write to the direction register and exactly one
bulk 16-bit write to the interrupt-enable register, and after it the
direction register bit i holds exactly when pin i is configured Output
while the interrupt-enable register bit i holds exactly when pin i is
configured Interrupt. -/
theorem build_bulk_writes (b : Builder) (s : St)
    (hlen : b.pins.length = 16)
    (hni : b.useInterrupts = false)
    (hf : s.faults = []) (ht : s.trace = [])
    (hid : s.chip.chipID % 65536 = 0x1600) :
    (b.build s).1 = .ok () ∧
    countRegWrites16 0x14 ((b.build s).2).trace = 1 ∧
    countRegWrites16 0x08 ((b.build s).2).trace = 1 ∧
    (∀ i, i < 16 → ((b.build s).2).chip.gpdr.testBit i
        = decide (b.pins[i]? = some PinMode.Output)) ∧
    (∀ i, i < 16 → ((b.build s).2).chip.iegpior.testBit i
        = decide (b.pins[i]? = some PinMode.Interrupt)) := by
  obtain ⟨bp, ba, bu, bip⟩ := b
  obtain ⟨c, f, t, p, a⟩ := s
  simp only at hni hf ht hid
  subst hni
  subst hf
  subst ht
  refine ⟨?_, ?_, ?_, ?_, ?_⟩
  · simp [Builder.build, init, read_reg_ok, write_reg_ok, write_reg8_ok, Register.addr,
      getReg, chipSet16, chipSet8, DEVICE_ID, hid, buildMasks]
  · simp [Builder.build, init, read_reg_ok, write_reg_ok, write_reg8_ok, Register.addr,
      getReg, chipSet16, chipSet8, DEVICE_ID, hid, buildMasks, countRegWrites16, isRegWrite16]
  · simp [Builder.build, init, read_reg_ok, write_reg_ok, write_reg8_ok, Register.addr,
      getReg, chipSet16, chipSet8, DEVICE_ID, hid, buildMasks, countRegWrites16, isRegWrite16]
  · intro i hi
    have hred : ((Builder.build ⟨bp, ba, false, bip⟩
        ⟨c, [], [], p, a⟩).2).chip.gpdr = (buildMasksAux bp 0 0 0).1 % 65536 := by
      simp [Builder.build, init, read_reg_ok, write_reg_ok, write_reg8_ok, Register.addr,
        getReg, chipSet16, chipSet8, DEVICE_ID, hid, buildMasks]
    rw [hred, testBit_mod65536 _ _ hi, buildMasksAux_fst_testBit]
    simp
  · intro i hi
    have hred : ((Builder.build ⟨bp, ba, false, bip⟩
        ⟨c, [], [], p, a⟩).2).chip.iegpior = (buildMasksAux bp 0 0 0).2 % 65536 := by
      simp [Builder.build, init, read_reg_ok, write_reg_ok, write_reg8_ok, Register.addr,
        getReg, chipSet16, chipSet8, DEVICE_ID, hid, buildMasks]
    rw [hred, testBit_mod65536 _ _ hi, buildMasksAux_snd_testBit]
    simp

/-- Witness for claim C5 on the scenario B configuration: pin 1 Output,
pin 2 Interrupt, all other pins Input. -/
theorem build_bulk_writes_witness :
    bB.pins.length = 16 ∧ bB.useInterrupts = false ∧ st0.faults = [] ∧ st0.trace = [] ∧
    st0.chip.chipID % 65536 = 0x1600 ∧
    ((bB.build st0).1 = .ok () ∧
     countRegWrites16 0x14 ((bB.build st0).2).trace = 1 ∧
     countRegWrites16 0x08 ((bB.build st0).2).trace = 1 ∧
     (∀ i, i < 16 → ((bB.build st0).2).chip.gpdr.testBit i
         = decide (bB.pins[i]? = some PinMode.Output)) ∧
     (∀ i, i < 16 → ((bB.build st0).2).chip.iegpior.testBit i
         = decide (bB.pins[i]? = some PinMode.Interrupt))) :=
  ⟨by decide, rfl, rfl, rfl, by decide,
   build_bulk_writes bB st0 (by decide) rfl rfl rfl (by decide)⟩

/-- Claim C6: for every pin p below 16 and level v, writing the level of an
Output pin (set_high or set_low) succeeds on a fault-free bus, leaves bit
p of the pin-level set register equal to v and every other bit equal to
its just-read value, and issues exactly the read-modify-write pattern on
that register: the address write, the two-byte read, and one three-byte
write back. -/
theorem write_level_sets_bit (p : Nat) (v : Bool) (s : St) (hp : p < 16) (hf : s.faults = []) :
    (PinOutput.write_level p v s).1 = .ok () ∧
    ((PinOutput.write_level p v s).2).chip.gpsr.testBit p = v ∧
    (∀ i, i < 16 → i ≠ p →
      ((PinOutput.write_level p v s).2).chip.gpsr.testBit i = s.chip.gpsr.testBit i) ∧
    ((PinOutput.write_level p v s).2).trace
      = s.trace ++ [.wr s.addr [0x12],
          .rd s.addr [s.chip.gpsr % 256, (s.chip.gpsr >>> 8) % 256],
          .wr s.addr (0x12 :: (if v then
            [((s.chip.gpsr % 65536) ||| (1 <<< p)) % 256,
             (((s.chip.gpsr % 65536) ||| (1 <<< p)) >>> 8) % 256]
          else
            [((s.chip.gpsr % 65536) &&& (0xFFFF ^^^ (1 <<< p))) % 256,
             (((s.chip.gpsr % 65536) &&& (0xFFFF ^^^ (1 <<< p))) >>> 8) % 256]))] := by
  cases v
  · simp only [PinOutput.write_level, Bool.false_eq_true, if_false]
    rw [pinOutput_set_low_eq p s hf]
    refine ⟨rfl, ?_, ?_, rfl⟩
    · show (((s.chip.gpsr % 65536) &&& (0xFFFF ^^^ (1 <<< p))) % 65536).testBit p = false
      rw [testBit_mod65536 _ _ hp, testBit_and_mask16 _ _ _ hp]
      simp
    · intro i h16 hip
      show (((s.chip.gpsr % 65536) &&& (0xFFFF ^^^ (1 <<< p))) % 65536).testBit i
        = s.chip.gpsr.testBit i
      rw [testBit_mod65536 _ _ h16, testBit_and_mask16 _ _ _ h16, testBit_mod65536 _ _ h16]
      simp [Ne.symm hip]
  · simp only [PinOutput.write_level, if_true]
    rw [pinOutput_set_high_eq p s hf]
    refine ⟨rfl, ?_, ?_, rfl⟩
    · show (((s.chip.gpsr % 65536) ||| (1 <<< p)) % 65536).testBit p = true
      rw [testBit_mod65536 _ _ hp, testBit_or_one_shift]
      simp
    · intro i h16 hip
      show (((s.chip.gpsr % 65536) ||| (1 <<< p)) % 65536).testBit i = s.chip.gpsr.testBit i
      rw [testBit_mod65536 _ _ h16, testBit_or_one_shift, testBit_mod65536 _ _ h16]
      simp [Ne.symm hip]

/-- Witness for claim C6: set_high on pin 0 over a set register holding
0x0000, the scenario C input. -/
theorem write_level_sets_bit_witness :
    (0 : Nat) < 16 ∧ st0.faults = [] ∧
    ((PinOutput.write_level 0 true st0).1 = .ok () ∧
     ((PinOutput.write_level 0 true st0).2).chip.gpsr.testBit 0 = true ∧
     (∀ i, i < 16 → i ≠ 0 →
       ((PinOutput.write_level 0 true st0).2).chip.gpsr.testBit i = st0.chip.gpsr.testBit i) ∧
     ((PinOutput.write_level 0 true st0).2).trace
       = st0.trace ++ [.wr st0.addr [0x12],
           .rd st0.addr [st0.chip.gpsr % 256, (st0.chip.gpsr >>> 8) % 256],
           .wr st0.addr (0x12 :: (if true then
             [((st0.chip.gpsr % 65536) ||| (1 <<< 0)) % 256,
              (((st0.chip.gpsr % 65536) ||| (1 <<< 0)) >>> 8) % 256]
           else
             [((st0.chip.gpsr % 65536) &&& (0xFFFF ^^^ (1 <<< 0))) % 256,
              (((st0.chip.gpsr % 65536) &&& (0xFFFF ^^^ (1 <<< 0))) >>> 8) % 256]))]) :=
  ⟨by decide, rfl, write_level_sets_bit 0 true st0 (by decide) rfl⟩

/-- Scenario C of the spec evaluated on the model: set_high on pin 0 with a
current set register of 0x0000 issues exactly the transactions
read(GPSR) = 0x0000 then write(GPSR, 0x0001). -/
theorem set_high_scenario_c :
    PinOutput.set_high 0 st0 =
      (.ok (),
       { st0 with
           chip := { chip0 with gpsr := 1, ptr := 0x12 }
           trace := [.wr 0x42 [0x12], .rd 0x42 [0x00, 0x00], .wr 0x42 [0x12, 0x01, 0x00]] }) :=
  rfl

/-- Claim C7: on a fault-free bus, get_interrupts reads the interrupt
status register once (one address write, one two-byte read, nothing else)
and returns the 16-element boolean array whose element i is true exactly
when bit i of the just-read 16-bit status value is set. -/
theorem get_interrupts_unpacks_status (s : St) (hf : s.faults = []) :
    (get_interrupts s).1 = .ok (interruptArray (s.chip.isgpior % 65536)) ∧
    (interruptArray (s.chip.isgpior % 65536)).length = 16 ∧
    (∀ i, i < 16 → (interruptArray (s.chip.isgpior % 65536))[i]?
        = some ((s.chip.isgpior % 65536).testBit i)) ∧
    ((get_interrupts s).2).trace = s.trace ++ [.wr s.addr [0x0A],
      .rd s.addr [s.chip.isgpior % 256, (s.chip.isgpior >>> 8) % 256]] := by
  obtain ⟨c, f, t, p, a⟩ := s
  simp only at hf
  subst hf
  refine ⟨?_, interruptArray_length _, fun i hi => interruptArray_getElem _ i hi, ?_⟩
  · simp [get_interrupts, read_reg_ok, Register.addr, getReg]
  · simp [get_interrupts, read_reg_ok, Register.addr, getReg]

/-- Witness for claim C7 on a chip whose status register holds 0x8001. -/
theorem get_interrupts_unpacks_status_witness :
    stInt.faults = [] ∧
    ((get_interrupts stInt).1 = .ok (interruptArray (stInt.chip.isgpior % 65536)) ∧
     (interruptArray (stInt.chip.isgpior % 65536)).length = 16 ∧
     (∀ i, i < 16 → (interruptArray (stInt.chip.isgpior % 65536))[i]?
         = some ((stInt.chip.isgpior % 65536).testBit i)) ∧
     ((get_interrupts stInt).2).trace = stInt.trace ++ [.wr stInt.addr [0x0A],
       .rd stInt.addr [stInt.chip.isgpior % 256, (stInt.chip.isgpior >>> 8) % 256]]) :=
  ⟨rfl, get_interrupts_unpacks_status stInt rfl⟩

/-- Claim C8: a 16-bit register read issues a one-byte register address
write followed by a two-byte read, and returns the wire bytes b0 then b1
reassembled as (b1 shifted left by 8) or b0 (low byte first on the wire);
a 16-bit register write issues a single three-byte write of the register
address, the low byte of the value, then the high byte of the value. -/
theorem reg_wire_format (reg : Register) (s : St) (b0 b1 v : Nat)
    (h0 : b0 < 256) (h1 : b1 < 256)
    (hreg : getReg s.chip reg.addr = b0 + 256 * b1)
    (hf : s.faults = []) :
    read_reg reg s =
      (.ok ((b1 <<< 8) ||| b0),
       { s with
           chip := { s.chip with ptr := reg.addr }
           trace := s.trace ++ [.wr s.addr [reg.addr], .rd s.addr [b0, b1]] }) ∧
    write_reg reg v s =
      (.ok (),
       { s with
           chip := chipSet16 s.chip reg.addr (v % 65536)
           trace := s.trace ++ [.wr s.addr [reg.addr, v % 256, (v >>> 8) % 256]] }) := by
  constructor
  · have hv : (b0 + 256 * b1) % 65536 = (b1 <<< 8) ||| b0 := by
      rw [assemble_bytes b0 b1 h0 h1]
      exact Nat.mod_eq_of_lt (by omega)
    rw [read_reg_ok _ _ hf, hreg, lo_byte _ _ h0, hi_byte _ _ h0 h1, hv]
  · exact write_reg_ok reg v s hf

/-- Witness for claim C8: reading a register holding 0xBEEF yields wire
bytes 0xEF then 0xBE and the value 0xBEEF; writing 0x1234 issues the
three bytes address, 0x34, 0x12. -/
theorem reg_wire_format_witness :
    (0xEF : Nat) < 256 ∧ (0xBE : Nat) < 256 ∧
    getReg stBE.chip (Register.addr .GPSR) = 0xEF + 256 * 0xBE ∧
    stBE.faults = [] ∧
    (read_reg .GPSR stBE =
      (.ok ((0xBE <<< 8) ||| 0xEF),
       { stBE with
           chip := { stBE.chip with ptr := Register.addr .GPSR }
           trace := stBE.trace ++ [.wr stBE.addr [Register.addr .GPSR],
             .rd stBE.addr [0xEF, 0xBE]] }) ∧
     write_reg .GPSR 0x1234 stBE =
      (.ok (),
       { stBE with
           chip := chipSet16 stBE.chip (Register.addr .GPSR) (0x1234 % 65536)
           trace := stBE.trace ++ [.wr stBE.addr [Register.addr .GPSR, 0x1234 % 256,
             (0x1234 >>> 8) % 256]] })) :=
  ⟨by decide, by decide, by decide, rfl,
   reg_wire_format .GPSR stBE 0xEF 0xBE 0x1234 (by decide) (by decide) (by decide) rfl⟩

/-- Claim C10: the operations that take a runtime pin number, namely the
builder pin configuration (set_pin, which both the pin and pins builder
methods call) and the deprecated get and set functions, assert pin < 16:
they panic (modelled as none) exactly for pin indices of 16 and above,
and for every index below 16 the assertion passes and no panic occurs. -/
theorem pin_index_asserted (b : Builder) (mode : PinMode) (s : St) (v : Bool) (pin : Nat) :
    (Builder.set_pin b pin mode).isSome = decide (pin < 16) ∧
    (Stmpe1600.get pin s).isSome = decide (pin < 16) ∧
    (Stmpe1600.set pin v s).isSome = decide (pin < 16) := by
  refine ⟨?_, ?_, ?_⟩
  · unfold Builder.set_pin
    by_cases h : pin < 16 <;> simp [h]
  · unfold Stmpe1600.get
    by_cases h : pin < 16 <;> simp [h]
  · unfold Stmpe1600.set
    by_cases h : pin < 16 <;> simp [h]
